import Mathlib

/-!
# Verification of the dvc hashing/transfer engine and experiment-reference GC

Shallow embedding of `dvc/tree/base.py` (hashing engine, transfer engine)
and `dvc/repo/experiments/gc.py` (reference GC), with theorems settling the
specification claims about them.
-/

namespace Dvc

/-! ## Hash value model (`HashInfo`, `is_dir_hash`) -/

/-- Source: `BaseTree.CHECKSUM_DIR_SUFFIX` from `dvc/tree/base.py`. -/
def CHECKSUM_DIR_SUFFIX : String := ".dir"

/-- Content hash. Modelled from the spec: `dvc/hash_info.py` is not in the
sources; the spec's ContentHash is `{algorithm, value, optional size}` with
directory-ness derivable from the value alone. -/
structure HashInfo where
  name : String
  value : String
  size : Option Nat := none
deriving DecidableEq, Repr

/-- Python's `str.endswith`, executably on the strings' character lists. -/
def str_ends_with (s pat : String) : Bool :=
  pat.data.isSuffixOf s.data

/-- Source: `BaseTree.is_dir_hash` from `dvc/tree/base.py`: a hash value denotes a
directory iff it is non-empty and ends with the reserved `.dir` suffix. -/
def is_dir_hash (hash_ : Option String) : Bool :=
  match hash_ with
  | none => false
  | some v => v ≠ "" && str_ends_with v CHECKSUM_DIR_SUFFIX

/-- Modelled from the spec: `HashInfo.isdir` (from the missing
`dvc/hash_info.py`) derives directory-ness from the value's reserved suffix,
consistently with `is_dir_hash` in `dvc/tree/base.py`. -/
def HashInfo.isdir (hi : HashInfo) : Bool :=
  str_ends_with hi.value CHECKSUM_DIR_SUFFIX

/-! ## Single-object download (`_download_file`)

`_download_file` creates the destination's parent directory, downloads into
a temporary file adjacent to the destination, and only then moves the
temporary file onto the destination.  We model the filesystem as a partial
map from paths to contents and expose every intermediate state as a trace. -/

/-- A flat filesystem: path → contents (`none` = absent). -/
def FS : Type := String → Option String

/-- Write (create or overwrite) a file. -/
def FS.write (fs : FS) (p : String) (c : String) : FS :=
  fun q => if q = p then some c else fs q

/-- Source: `move` from `dvc.utils.fs`: rename `src` onto `dst`. Modelled from the
spec: the move step atomically renames the temporary file into place. -/
def FS.move (fs : FS) (src dst : String) : FS :=
  fun q => if q = dst then fs src else if q = src then none else fs q

/-- Source: `tmp_fname` from `dvc.utils`. Modelled from the spec: a temporary
location adjacent to the final destination (destination path plus a
non-empty random suffix). -/
def tmp_fname (path : String) : String :=
  path ++ ".RaNd0m.tmp"

/-- Outcome of the backend `_download` primitive on the temporary file:
either the full contents arrive, or the primitive raises after having
written some partial contents (or nothing) to the temporary file. -/
inductive DownloadAttempt where
  | success (content : String)
  | failure (written : Option String) (err : String)
deriving DecidableEq, Repr

/-- Source: `_download_file` from `dvc/tree/base.py`, as the list of observable
filesystem states (initial, after the temporary write, after the move) and
the error, if any.  `makedirs` only affects directories, which the flat
file map does not track. -/
def download_file (fs : FS) (to_info : String) (att : DownloadAttempt) :
    List FS × Option String :=
  let tmp_file := tmp_fname to_info
  match att with
  | .success c =>
    let s1 := fs.write tmp_file c
    ([fs, s1, s1.move tmp_file to_info], none)
  | .failure w e =>
    let s1 := match w with
      | some c => fs.write tmp_file c
      | none => fs
    ([fs, s1], some e)

/-! ## Directory download (`_download_dir`)

`_download_dir` submits one `_download_file` per member to a thread pool,
then walks the futures in completion order; at the first future that
raised, it calls `cancel()` on every future and re-raises that exception.
`Future.cancel` only succeeds on futures that have not started; futures
already running finish, but their results are never consulted.

Embedding: the completion order is an arbitrary permutation `cs` of the
member list; `r i` is the outcome of member `i`'s transfer (`none` =
success); `inflight i` tells whether `i` had already started when the
cancellation fired (only consulted for members after the first failure). -/

/-- Status of one member transfer after `_download_dir` returns. -/
inductive FutureStatus where
  | completed (res : Option String)
  | cancelled
deriving DecidableEq, Repr

/-- The `as_completed` loop of `_download_dir`: walk futures in completion
order; at the first raised exception cancel everything still pending and
re-raise it.  Returns each member's final status and the overall result. -/
def download_dir_loop (r : String → Option String) (inflight : String → Bool) :
    List String → List (String × FutureStatus) × Except String Unit
  | [] => ([], Except.ok ())
  | i :: rest =>
    match r i with
    | none =>
      let (sts, res) := download_dir_loop r inflight rest
      ((i, .completed none) :: sts, res)
    | some e =>
      ((i, .completed (some e)) ::
        rest.map (fun j => (j, if inflight j then .completed (r j) else .cancelled)),
       Except.error e)

/-- First member error in completion order. -/
def first_error (r : String → Option String) : List String → Option String
  | [] => none
  | i :: rest =>
    match r i with
    | some e => some e
    | none => first_error r rest

/-! ## `get_hash` (fingerprint cache consultation and writing)

`get_hash` runs sequentially: check existence; consult the state (the
fingerprint cache); drop a cached directory hash whose backing manifest
artifact is gone from the cache-store; on a hit return it (re-registering
a directory manifest); on a miss compute, then save to the state only if
the location still exists.  The environment snapshots every external
query the function makes, with the two `self.exists` calls sampled
separately because the location can disappear mid-computation. -/

/-- Source: `BaseTree.hash_to_path_info` from `dvc/tree/base.py`:
`path_info / hash_[0:2] / hash_[2:]`, with paths as segment lists. -/
def hash_to_path_info (root : List String) (hash_ : String) : List String :=
  root ++ [hash_.take 2, hash_.drop 2]

/-- External state consulted by one `get_hash` call. -/
structure GetHashEnv where
  /-- Source: `self.exists(path_info)` at entry. -/
  exists1 : Bool
  /-- Source: `self.state.get(path_info)`: the fingerprint-cache entry. -/
  state_hash : Option HashInfo
  /-- Root path of the cache-store's tree (`self.cache.tree.path_info`). -/
  cache_root : List String
  /-- Source: `self.cache.tree.exists(p)`: whether the cache-store holds `p`. -/
  cache_tree_exists : List String → Bool
  /-- Source: `self.isdir(path_info)`. -/
  is_dir : Bool
  /-- Result of `self.get_dir_hash(path_info, **kwargs)` on the miss path. -/
  dir_hash : Option HashInfo
  /-- Result of `self.get_file_hash(path_info)` on the miss path. -/
  file_hash : Option HashInfo
  /-- Source: `self.exists(path_info)` sampled again just before `state.save`. -/
  exists2 : Bool

/-- Observable outcome of one `get_hash` call. -/
structure GetHashResult where
  /-- The returned hash. -/
  result : Option HashInfo
  /-- The `state.save(path_info, hash_info)` write, if performed. -/
  saved : Option HashInfo
  /-- The `cache.set_dir_info(hash_info)` re-registration, if performed. -/
  dir_registered : Option HashInfo
deriving DecidableEq, Repr

/-- The hash computed on the miss path of `BaseTree.get_hash`:
`get_dir_hash` for a directory, `get_file_hash` otherwise. -/
def get_hash_computed (env : GetHashEnv) : Option HashInfo :=
  if env.is_dir then env.dir_hash else env.file_hash

/-- The `state.save` write of `BaseTree.get_hash`'s miss path: performed
only when a hash was computed and the location still exists. -/
def miss_saved (env : GetHashEnv) : Option HashInfo :=
  if (get_hash_computed env).isSome ∧ env.exists2 then get_hash_computed env
  else none

/-- The cache-miss tail of `BaseTree.get_hash`: compute a directory or file
hash, then `state.save` it only if the location still exists. -/
def get_hash_miss (env : GetHashEnv) : GetHashResult :=
  ⟨get_hash_computed env, miss_saved env, none⟩

/-- The fingerprint-cache consultation of `BaseTree.get_hash`, applied to
`self.state.get(path_info)`: a cached directory hash whose manifest artifact
is gone from the cache-store is dropped (a miss); a surviving hit is
returned, re-registering its manifest if it is a directory hash. -/
def get_hash_cached (env : GetHashEnv) : Option HashInfo → GetHashResult
  | some hi =>
    if hi.isdir ∧
        ¬ env.cache_tree_exists (hash_to_path_info env.cache_root hi.value) then
      get_hash_miss env
    else ⟨some hi, none, if hi.isdir then some hi else none⟩
  | none => get_hash_miss env

/-- Source: `BaseTree.get_hash` from `dvc/tree/base.py`. -/
def get_hash (env : GetHashEnv) : GetHashResult :=
  if ¬ env.exists1 then ⟨none, none, none⟩
  else get_hash_cached env env.state_hash

/-! ## Directory hashing (`_collect_dir`, `get_dir_hash`) -/

/-- Modelled from the spec: the designated ignore-marker filename
(`DvcIgnore.DVCIGNORE_FILE`; `dvc/ignore.py` is not in the sources). -/
def DVCIGNORE_FILE : String := ".dvcignore"

/-- One member file as `_collect_dir` sees it: its path parts relative to
the directory root (`fi.relative_to(path_info).parts`) and its content
hash from `_iter_hashes`. -/
structure FileEntry where
  parts : List String
  hi : HashInfo
deriving DecidableEq, Repr

/-- The member's basename, `fi.name` (the last path part). -/
def FileEntry.name (fi : FileEntry) : String :=
  fi.parts.getLastD ""

/-- The member's parent directory, `fi.parent`, with `root` the directory
being collected. -/
def FileEntry.parent (fi : FileEntry) (root : List String) : List String :=
  root ++ fi.parts.dropLast

/-- Modelled from the spec: the manifest built by `_collect_dir`
(`DirInfo.trie`; `dvc/dir_info.py` is not in the sources) is a mapping
from relative path parts to a ContentHash, here a finite map. -/
abbrev DirInfo := Finmap fun _ : List String => HashInfo

/-- Modelled from the spec: the manifest's aggregate size is the sum of
the member sizes (the spec leaves the treatment of unknown member sizes
open; an unknown size counts as zero here). -/
def dir_size (d : DirInfo) : Nat :=
  (d.entries.map fun e => e.2.size.getD 0).sum

/-- The loop body of `BaseTree._collect_dir`: reject a member named like
the ignore marker with a structural-violation error carrying the member's
parent directory, otherwise record the member in the manifest trie. -/
def collect_dir_go (root : List String) (acc : DirInfo) :
    List FileEntry → Except (List String) DirInfo
  | [] => .ok acc
  | fi :: rest =>
    if fi.name = DVCIGNORE_FILE then .error (fi.parent root)
    else collect_dir_go root (acc.insert fi.parts fi.hi) rest

/-- Source: `BaseTree._collect_dir` from `dvc/tree/base.py`, starting from the
empty manifest. -/
def collect_dir (root : List String) (entries : List FileEntry) :
    Except (List String) DirInfo :=
  collect_dir_go root ∅ entries

/-- The error `_collect_dir` raises when it raises: the parent directory
of the first marker-named member in enumeration order. -/
def find_marker (root : List String) : List FileEntry → Option (List String)
  | [] => none
  | fi :: rest =>
    if fi.name = DVCIGNORE_FILE then some (fi.parent root)
    else find_marker root rest

/-- Modelled from the spec: `save_dir_info` of the local cache-store
(`dvc/cache/local.py` is not in the sources) canonically serializes the
manifest, hashes that serialization with the backend's algorithm (the
hash function is the parameter `H`), and returns a ContentHash whose
value carries the directory marker suffix. -/
def save_dir_info (H : DirInfo → String) (alg : String) (d : DirInfo) : HashInfo :=
  ⟨alg, H d ++ CHECKSUM_DIR_SUFFIX, none⟩

/-- Source: `BaseTree.get_dir_hash` from `dvc/tree/base.py`: collect the manifest,
persist it through the cache-store, and attach the aggregate size. -/
def get_dir_hash (H : DirInfo → String) (alg : String) (root : List String)
    (entries : List FileEntry) : Except (List String) HashInfo :=
  (collect_dir root entries).map fun d =>
    { save_dir_info H alg d with size := some (dir_size d) }

/-! ## Download dispatch (`download`) -/

/-- How a `download` call resolves before any member transfer runs. -/
inductive DownloadOutcome where
  | actionNotSupported (action scheme : String)
  | crossScheme
  | copied (bytes : Nat)
  | dirDownload
  | fileDownload
deriving DecidableEq, Repr

/-- The inputs `BaseTree.download` dispatches on. -/
structure DownloadArgs where
  has_download : Bool
  self_scheme : String
  from_scheme : String
  to_scheme : String
  from_isdir : Bool
deriving DecidableEq, Repr

/-- Source: `BaseTree.download` from `dvc/tree/base.py`: capability probe, scheme
checks, native same-provider copy shortcut, then the directory or file
path.  Both `NotImplementedError` raises are cross-scheme failures. -/
def download (a : DownloadArgs) : DownloadOutcome :=
  if ¬ a.has_download then .actionNotSupported "download" a.self_scheme
  else if a.from_scheme ≠ a.self_scheme then .crossScheme
  else if a.to_scheme = a.self_scheme ∧ a.self_scheme ≠ "local" then .copied 0
  else if a.to_scheme ≠ "local" then .crossScheme
  else if a.from_isdir then .dirDownload
  else .fileDownload

/-- The C7 claim as stated: a source-scheme mismatch fails with a
cross-scheme error, except that whenever the destination's scheme equals
the backend's scheme and is not the local scheme, the call is served by
the native copy primitive reporting zero bytes. -/
def download_claim_literal : Prop :=
  ∀ a : DownloadArgs, a.has_download = true →
    ((a.to_scheme = a.self_scheme ∧ a.self_scheme ≠ "local") →
      download a = .copied 0)
    ∧ ((¬ (a.to_scheme = a.self_scheme ∧ a.self_scheme ≠ "local")) →
      a.from_scheme ≠ a.self_scheme → download a = .crossScheme)

/-! ## Experiment reference GC (`dvc/repo/experiments/gc.py`) -/

/-- A versioned experiment reference: its full name (`str(ref_info)`) and
the baseline revision it belongs to. -/
structure RefInfo where
  name : String
  baseline_sha : String
deriving DecidableEq, Repr

/-- A queued experiment (an entry of `repo.experiments.stash_revs`). -/
structure StashEntry where
  index : Nat
  baseline_rev : String
deriving DecidableEq, Repr

/-- External state read by one `gc` call. -/
structure GcEnv where
  /-- Revisions yielded by `repo.brancher(...)` for the requested flags. -/
  brancher_revs : List String
  /-- Source: `repo.scm.get_rev()`, added when `workspace` is set. -/
  workspace_rev : String
  /-- Source: `exp_refs(repo.scm)`, in iteration order. -/
  refs : List RefInfo
  /-- Source: `repo.scm.get_ref(name)`: the commit each reference points to. -/
  ref_target : String → String
  /-- Source: `repo.scm.get_ref(EXEC_BRANCH, follow=False)`: the experiment ref
  name the execution branch pointer designates, if set. -/
  exec_branch : Option String
  /-- Source: `repo.scm.get_ref(EXEC_APPLY)`: a commit, if set. -/
  exec_apply : Option String
  /-- Source: `repo.scm.get_ref(EXEC_CHECKPOINT)`: a commit, if set. -/
  exec_checkpoint : Option String
  /-- The queued experiments. -/
  stash : List StashEntry

/-- Observable outcome of one `gc` call. -/
structure GcResult where
  removed : Nat
  remaining_refs : List RefInfo
  exec_branch : Option String
  exec_apply : Option String
  exec_checkpoint : Option String
  remaining_stash : List StashEntry
deriving DecidableEq, Repr

/-- Python truthiness of an optional string: `None` and `""` are falsy. -/
def truthy : Option String → Bool
  | none => false
  | some s => decide (s ≠ "")

/-- The revisions `gc` retains: the brancher's output, plus the workspace
revision when requested (`set` membership and emptiness coincide with the
list's). -/
def keep_revs (env : GcEnv) (workspace : Bool) : List String :=
  env.brancher_revs ++ (if workspace then [env.workspace_rev] else [])

/-- Accumulated effect of the reference loop of `gc`. -/
structure RefGcOut where
  removed : Nat
  kept : List RefInfo
  clear_branch : Bool
  clear_apply : Bool
  clear_checkpoint : Bool
deriving DecidableEq, Repr

/-- The reference loop of `gc`: a reference whose baseline is not retained
is removed and counted; on such a removal the `EXEC_BRANCH` pointer is
cleared whenever it is set and the reference's name is non-empty (the
code tests `exec_branch and str(ref_info)`), while `EXEC_APPLY` and
`EXEC_CHECKPOINT` are cleared when they equal the removed reference's
target commit.  The three pointers were read once before the loop. -/
def gc_refs (keep : List String) (tgt : String → String)
    (eb ea ec : Option String) : List RefInfo → RefGcOut
  | [] => ⟨0, [], false, false, false⟩
  | ri :: rest =>
    let r := gc_refs keep tgt eb ea ec rest
    if ri.baseline_sha ∈ keep then
      { r with kept := ri :: r.kept }
    else
      { removed := r.removed + 1
        kept := r.kept
        clear_branch := r.clear_branch || (truthy eb && decide (ri.name ≠ ""))
        clear_apply := r.clear_apply || (truthy ea && decide (ea = some (tgt ri.name)))
        clear_checkpoint :=
          r.clear_checkpoint || (truthy ec && decide (ec = some (tgt ri.name))) }

/-- The stash-drop predicate of `gc`: `not queued or entry.baseline_rev
not in keep_revs`. -/
def stash_delete_cond (keep : List String) (queued : Bool) (e : StashEntry) : Bool :=
  !queued || decide (e.baseline_rev ∉ keep)

/-- The body of `gc` once the retained set is known non-empty: run the
reference loop, drop the selected stash entries, clear the pointers the
loop decided to clear, and report the total count. -/
def gc_run (env : GcEnv) (keep : List String) (queued : Bool) : GcResult :=
  ⟨(gc_refs keep env.ref_target env.exec_branch env.exec_apply
        env.exec_checkpoint env.refs).removed
      + (env.stash.filter (stash_delete_cond keep queued)).length,
   (gc_refs keep env.ref_target env.exec_branch env.exec_apply
        env.exec_checkpoint env.refs).kept,
   if (gc_refs keep env.ref_target env.exec_branch env.exec_apply
        env.exec_checkpoint env.refs).clear_branch then none else env.exec_branch,
   if (gc_refs keep env.ref_target env.exec_branch env.exec_apply
        env.exec_checkpoint env.refs).clear_apply then none else env.exec_apply,
   if (gc_refs keep env.ref_target env.exec_branch env.exec_apply
        env.exec_checkpoint env.refs).clear_checkpoint then none
     else env.exec_checkpoint,
   env.stash.filter fun e => !(stash_delete_cond keep queued e)⟩

/-- Source: `gc` from `dvc/repo/experiments/gc.py`. -/
def gc (env : GcEnv) (workspace queued : Bool) : GcResult :=
  if (keep_revs env workspace).isEmpty then
    ⟨0, env.refs, env.exec_branch, env.exec_apply, env.exec_checkpoint, env.stash⟩
  else gc_run env (keep_revs env workspace) queued

/-- The queued-entry clause of the C8 claim as stated: a default `gc`
call (all-queued removal not explicitly requested) keeps every queued
entry whose baseline is retained. -/
def gc_claim_queued_literal : Prop :=
  ∀ (env : GcEnv) (workspace : Bool),
    keep_revs env workspace ≠ [] →
    (gc env workspace false).remaining_stash =
      env.stash.filter fun e => decide (e.baseline_rev ∈ keep_revs env workspace)

/-- Concrete input refuting the queued-entry clause: one queued entry
whose baseline is retained. -/
def gc_c8_env : GcEnv :=
  { brancher_revs := ["rev1"]
    workspace_rev := "rev1"
    refs := []
    ref_target := fun _ => "sha0"
    exec_branch := none
    exec_apply := none
    exec_checkpoint := none
    stash := [⟨0, "rev1"⟩] }

/-- Concrete input exhibiting the `EXEC_BRANCH` clearing bug: the pointer
designates a retained reference while an unrelated reference is removed. -/
def gc_c9_env : GcEnv :=
  { brancher_revs := ["rev1"]
    workspace_rev := "rev1"
    refs := [⟨"refs/exps/aa/r1", "rev1"⟩, ⟨"refs/exps/bb/r2", "rev2"⟩]
    ref_target := fun n => if n = "refs/exps/aa/r1" then "sha1" else "sha2"
    exec_branch := some "refs/exps/aa/r1"
    exec_apply := none
    exec_checkpoint := none
    stash := [] }

end Dvc

namespace Dvc

/-- The temporary name differs from the destination. -/
theorem tmp_fname_ne (path : String) : tmp_fname path ≠ path := by
  intro h
  have h2 := congrArg String.length h
  rw [tmp_fname, String.length_append] at h2
  have h3 : String.length ".RaNd0m.tmp" = 11 := rfl
  omega

/-- C2: `_download_file` never exposes a partial object at the destination:
every intermediate state holds either the original destination contents or
the complete downloaded contents; on failure the destination is unchanged
in every state; on success the final state holds the full contents. -/
theorem download_file_atomic (fs : FS) (to_info : String) (att : DownloadAttempt) :
    (∀ s ∈ (download_file fs to_info att).1,
      s to_info = fs to_info ∨ ∃ c, att = .success c ∧ s to_info = some c)
    ∧ ((download_file fs to_info att).2.isSome →
        ∀ s ∈ (download_file fs to_info att).1, s to_info = fs to_info)
    ∧ (∀ c, att = .success c →
        ∃ sfin, (download_file fs to_info att).1.getLast? = some sfin ∧
          sfin to_info = some c) := by
  have htmp := tmp_fname_ne to_info
  refine ⟨?_, ?_, ?_⟩
  · intro s hs
    cases att with
    | success c =>
      simp only [download_file, List.mem_cons, List.not_mem_nil, or_false] at hs
      rcases hs with h | h | h
      · exact Or.inl (by rw [h])
      · subst h
        exact Or.inl (by simp [FS.write, htmp.symm])
      · subst h
        refine Or.inr ⟨c, rfl, ?_⟩
        simp [FS.move, FS.write]
    | failure w e =>
      simp only [download_file, List.mem_cons, List.not_mem_nil, or_false] at hs
      rcases hs with h | h
      · exact Or.inl (by rw [h])
      · subst h
        cases w with
        | some c => exact Or.inl (by simp [FS.write, htmp.symm])
        | none => exact Or.inl rfl
  · intro herr s hs
    cases att with
    | success c => simp [download_file] at herr
    | failure w e =>
      simp only [download_file, List.mem_cons, List.not_mem_nil, or_false] at hs
      rcases hs with h | h
      · rw [h]
      · subst h
        cases w with
        | some c => simp [FS.write, htmp.symm]
        | none => rfl
  · intro c hc
    subst hc
    refine ⟨(fs.write (tmp_fname to_info) c).move (tmp_fname to_info) to_info, ?_, ?_⟩
    · simp [download_file]
    · simp [FS.move, FS.write]

/-- Witness for C2 at a concrete input: a failing download that wrote a
partial temporary file leaves the destination (initially absent) unchanged
in the observable state after the partial write. -/
theorem download_file_atomic_witness :
    FS.write (fun _ => none) (tmp_fname "data.txt") "par" "data.txt" =
      (fun _ => (none : Option String)) "data.txt" :=
  (download_file_atomic (fun _ => none) "data.txt"
      (.failure (some "par") "boom")).2.1 rfl
    (FS.write (fun _ => none) (tmp_fname "data.txt") "par")
    (List.mem_cons_of_mem _ (List.mem_cons_self _ _))

/-- The loop succeeds iff every member in the completion order succeeded. -/
theorem download_dir_loop_ok_iff (r : String → Option String)
    (inflight : String → Bool) (cs : List String) :
    (download_dir_loop r inflight cs).2 = Except.ok () ↔ ∀ i ∈ cs, r i = none := by
  induction cs with
  | nil => simp [download_dir_loop]
  | cons i rest ih =>
    cases h : r i with
    | none => simp [download_dir_loop, h, ih]
    | some e =>
      constructor
      · intro hcontra
        rw [download_dir_loop, h] at hcontra
        exact absurd hcontra (by simp)
      · intro hall
        exact absurd (h.symm.trans (hall i (List.mem_cons_self i rest)))
          (by simp)

/-- The loop propagates the first error of the completion order. -/
theorem download_dir_loop_first_error (r : String → Option String)
    (inflight : String → Bool) (cs : List String) (e : String)
    (h : first_error r cs = some e) :
    (download_dir_loop r inflight cs).2 = Except.error e := by
  induction cs with
  | nil => simp [first_error] at h
  | cons i rest ih =>
    cases hi : r i with
    | none =>
      rw [first_error, hi] at h
      simp [download_dir_loop, hi, ih h]
    | some e' =>
      rw [first_error, hi] at h
      cases h
      simp [download_dir_loop, hi]

/-- Cancelled members were never started, and cancellation only happens in
a failing run. -/
theorem download_dir_loop_cancelled (r : String → Option String)
    (inflight : String → Bool) (cs : List String) (i : String)
    (h : (i, FutureStatus.cancelled) ∈ (download_dir_loop r inflight cs).1) :
    inflight i = false ∧ ∃ e, (download_dir_loop r inflight cs).2 = Except.error e := by
  induction cs with
  | nil => simp [download_dir_loop] at h
  | cons j rest ih =>
    cases hj : r j with
    | none =>
      rw [download_dir_loop, hj] at h ⊢
      simp only [List.mem_cons] at h
      rcases h with h | h
      · exact absurd h (by simp)
      · exact ih h
    | some e =>
      rw [download_dir_loop, hj] at h ⊢
      simp only [List.mem_cons, List.mem_map] at h
      rcases h with h | ⟨j', _hj', hmap⟩
      · exact absurd h (by simp)
      · by_cases hf : inflight j'
        · simp [hf] at hmap
        · simp only [hf, if_neg, Bool.false_eq_true, Prod.mk.injEq] at hmap
          refine ⟨?_, e, rfl⟩
          rw [← hmap.1]
          exact Bool.eq_false_iff.mpr hf

/-- The overall result does not depend on which pending members happened to
be in flight: in-flight results never mask the first error. -/
theorem download_dir_loop_result_indep (r : String → Option String)
    (g g' : String → Bool) (cs : List String) :
    (download_dir_loop r g cs).2 = (download_dir_loop r g' cs).2 := by
  induction cs with
  | nil => rfl
  | cons i rest ih =>
    cases h : r i with
    | none => simp [download_dir_loop, h, ih]
    | some e => simp [download_dir_loop, h]

/-- C1: for any completion order `cs` of the members, `_download_dir`
(1) reports success iff every member transfer succeeded, (2) propagates
the first observed member error, (3) only cancels member transfers that
had not yet started, and only in a failing run, and (4) produces a result
that is independent of the in-flight set, so results of transfers already
running never mask the failure. -/
theorem download_dir_first_error_wins (members cs : List String)
    (r : String → Option String) (inflight : String → Bool)
    (hperm : cs.Perm members) :
    ((download_dir_loop r inflight cs).2 = Except.ok () ↔ ∀ i ∈ members, r i = none)
    ∧ (∀ e, first_error r cs = some e →
        (download_dir_loop r inflight cs).2 = Except.error e)
    ∧ (∀ i, (i, FutureStatus.cancelled) ∈ (download_dir_loop r inflight cs).1 →
        inflight i = false ∧ ∃ e, (download_dir_loop r inflight cs).2 = Except.error e)
    ∧ (∀ g : String → Bool,
        (download_dir_loop r g cs).2 = (download_dir_loop r inflight cs).2) := by
  refine ⟨?_, ?_, ?_, ?_⟩
  · rw [download_dir_loop_ok_iff]
    constructor
    · intro h i hi; exact h i (hperm.mem_iff.mpr hi)
    · intro h i hi; exact h i (hperm.mem_iff.mp hi)
  · exact download_dir_loop_first_error r inflight cs
  · exact download_dir_loop_cancelled r inflight cs
  · intro g; exact download_dir_loop_result_indep r g inflight cs

/-- Witness for C1 at a concrete input: members `a, b`, completion order
`b, a`, member `a` fails with `E`; the directory download fails with `E`. -/
theorem download_dir_first_error_wins_witness :
    (download_dir_loop (fun i => if i = "a" then some "E" else none)
      (fun _ => false) ["b", "a"]).2 = Except.error "E" :=
  (download_dir_first_error_wins ["a", "b"] ["b", "a"]
      (fun i => if i = "a" then some "E" else none) (fun _ => false)
      (by decide)).2.1 "E" (by decide)

/-- C5: when the fingerprint cache holds a directory hash whose backing
manifest artifact is no longer in the cache-store, `get_hash` behaves
exactly as on a cache miss: it recomputes instead of returning the stale
cached directory hash. -/
theorem get_hash_stale_dir_cache_is_miss (env : GetHashEnv) (hi : HashInfo)
    (hstate : env.state_hash = some hi) (hdir : hi.isdir = true)
    (hgone : env.cache_tree_exists (hash_to_path_info env.cache_root hi.value) = false) :
    get_hash env = get_hash { env with state_hash := none }
    ∧ (env.exists1 = true →
        (get_hash env).result = if env.is_dir then env.dir_hash else env.file_hash) := by
  have hcond :
      (hi.isdir = true ∧
        ¬ env.cache_tree_exists (hash_to_path_info env.cache_root hi.value) = true) :=
    ⟨hdir, by rw [hgone]; exact Bool.false_ne_true⟩
  have hmain : get_hash env = if ¬ env.exists1 then ⟨none, none, none⟩
      else get_hash_miss env := by
    unfold get_hash
    rw [hstate]
    simp only [get_hash_cached]
    rw [if_pos hcond]
  constructor
  · rw [hmain]
    unfold get_hash
    rfl
  · intro h1
    rw [hmain, if_neg (fun hn => hn h1)]
    show get_hash_computed env = _
    unfold get_hash_computed
    rfl

/-- Witness for C5 at a concrete input: a cached `.dir` hash whose artifact
the cache-store no longer holds is handled exactly like a miss. -/
theorem get_hash_stale_dir_cache_is_miss_witness :
    get_hash
        { exists1 := true
          state_hash := some ⟨"md5", "abc.dir", none⟩
          cache_root := ["cache"]
          cache_tree_exists := fun _ => false
          is_dir := true
          dir_hash := some ⟨"md5", "new.dir", some 1⟩
          file_hash := none
          exists2 := true } =
      get_hash
        { exists1 := true
          state_hash := none
          cache_root := ["cache"]
          cache_tree_exists := fun _ => false
          is_dir := true
          dir_hash := some ⟨"md5", "new.dir", some 1⟩
          file_hash := none
          exists2 := true } :=
  (get_hash_stale_dir_cache_is_miss _ ⟨"md5", "abc.dir", none⟩ rfl (by decide) rfl).1

/-- C6: `get_hash` writes the fingerprint cache only if the location still
exists at save time; a hash is saved only when it is also the returned
hash and the location still existed. -/
theorem get_hash_save_requires_existence (env : GetHashEnv) :
    (env.exists2 = false → (get_hash env).saved = none)
    ∧ (∀ hi, (get_hash env).saved = some hi →
        env.exists2 = true ∧ (get_hash env).result = some hi) := by
  have hmiss1 : env.exists2 = false → (get_hash_miss env).saved = none := by
    intro h2
    show miss_saved env = none
    unfold miss_saved
    rw [if_neg (by simp [h2])]
  have hmiss2 : ∀ hi, (get_hash_miss env).saved = some hi →
      env.exists2 = true ∧ (get_hash_miss env).result = some hi := by
    intro hi
    show miss_saved env = some hi → env.exists2 = true ∧ get_hash_computed env = some hi
    unfold miss_saved
    by_cases hcnd : ((get_hash_computed env).isSome = true ∧ env.exists2 = true)
    · rw [if_pos hcnd]
      exact fun hsave => ⟨hcnd.2, hsave⟩
    · rw [if_neg hcnd]
      intro hsave
      cases hsave
  unfold get_hash
  by_cases h1 : (¬ env.exists1 = true)
  · rw [if_pos h1]
    exact ⟨fun _ => rfl, fun hi hsave => by cases hsave⟩
  · rw [if_neg h1]
    cases hs : env.state_hash with
    | none => exact ⟨hmiss1, hmiss2⟩
    | some hi0 =>
      simp only [get_hash_cached]
      by_cases hc : (hi0.isdir = true ∧
          ¬ env.cache_tree_exists (hash_to_path_info env.cache_root hi0.value) = true)
      · rw [if_pos hc]
        exact ⟨hmiss1, hmiss2⟩
      · rw [if_neg hc]
        exact ⟨fun _ => rfl, fun hi hsave => by cases hsave⟩

/-- Witness for C6 at a concrete input: with the location deleted before
the save point, no fingerprint-cache entry is written. -/
theorem get_hash_save_requires_existence_witness :
    (get_hash
        { exists1 := true
          state_hash := none
          cache_root := []
          cache_tree_exists := fun _ => true
          is_dir := false
          dir_hash := none
          file_hash := some ⟨"md5", "f00", some 3⟩
          exists2 := false }).saved = none :=
  (get_hash_save_requires_existence _).1 rfl

/-- When no member is named like the ignore marker, `_collect_dir` folds
every member into the manifest trie and succeeds. -/
theorem collect_dir_go_ok (root : List String) (l : List FileEntry)
    (h : ∀ fi ∈ l, fi.name ≠ DVCIGNORE_FILE) (acc : DirInfo) :
    collect_dir_go root acc l =
      .ok (l.foldl (fun t fi => t.insert fi.parts fi.hi) acc) := by
  induction l generalizing acc with
  | nil => rfl
  | cons fi rest ih =>
    simp only [collect_dir_go, List.foldl_cons]
    rw [if_neg (h fi (List.mem_cons_self _ _))]
    exact ih (fun x hx => h x (List.mem_cons_of_mem _ hx)) _

/-- Inserting members with pairwise distinct relative paths into the
manifest trie is invariant under the enumeration order. -/
theorem collect_fold_perm (l1 l2 : List FileEntry) (hperm : l1.Perm l2)
    (hkeys : l1.Pairwise (fun a b => a.parts ≠ b.parts)) (acc : DirInfo) :
    l1.foldl (fun t fi => t.insert fi.parts fi.hi) acc
      = l2.foldl (fun t fi => t.insert fi.parts fi.hi) acc := by
  refine hperm.foldl_eq' (fun x hx y hy t => ?_) acc
  by_cases hxy : x = y
  · rw [hxy]
  · have hne : x.parts ≠ y.parts :=
      hkeys.forall (fun a b hab => fun hba => hab hba.symm) hx hy hxy
    exact Finmap.insert_insert_of_ne t hne

/-- C3: for a directory with no ignore-marker file and pairwise distinct
member paths, `_collect_dir` and `get_dir_hash` are invariant under any
permutation of the enumeration order: identical manifest, identical
resulting hash. -/
theorem get_dir_hash_perm_invariant (H : DirInfo → String) (alg : String)
    (root : List String) (l1 l2 : List FileEntry)
    (hperm : l1.Perm l2)
    (hkeys : l1.Pairwise (fun a b => a.parts ≠ b.parts))
    (hnomark : ∀ fi ∈ l1, fi.name ≠ DVCIGNORE_FILE) :
    collect_dir root l1 = collect_dir root l2
    ∧ get_dir_hash H alg root l1 = get_dir_hash H alg root l2 := by
  have hnomark2 : ∀ fi ∈ l2, fi.name ≠ DVCIGNORE_FILE := fun fi hfi =>
    hnomark fi (hperm.mem_iff.mpr hfi)
  have hc : collect_dir root l1 = collect_dir root l2 := by
    unfold collect_dir
    rw [collect_dir_go_ok root l1 hnomark ∅, collect_dir_go_ok root l2 hnomark2 ∅,
      collect_fold_perm l1 l2 hperm hkeys ∅]
  refine ⟨hc, ?_⟩
  unfold get_dir_hash
  rw [hc]

/-- Witness for C3 at a concrete input: two two-member enumerations of the
same directory, in opposite orders, produce the same manifest and hash. -/
theorem get_dir_hash_perm_invariant_witness :
    collect_dir ["root"]
        [⟨["a.txt"], ⟨"md5", "aa", some 1⟩⟩, ⟨["sub", "b.txt"], ⟨"md5", "bb", some 2⟩⟩] =
      collect_dir ["root"]
        [⟨["sub", "b.txt"], ⟨"md5", "bb", some 2⟩⟩, ⟨["a.txt"], ⟨"md5", "aa", some 1⟩⟩] :=
  (get_dir_hash_perm_invariant (fun _ => "h") "md5" ["root"]
      [⟨["a.txt"], ⟨"md5", "aa", some 1⟩⟩, ⟨["sub", "b.txt"], ⟨"md5", "bb", some 2⟩⟩]
      [⟨["sub", "b.txt"], ⟨"md5", "bb", some 2⟩⟩, ⟨["a.txt"], ⟨"md5", "aa", some 1⟩⟩]
      (by decide) (by decide) (by decide)).1

/-- When `find_marker` locates a marker-named member, `_collect_dir`
raises, whatever had been accumulated so far. -/
theorem collect_dir_go_marker (root : List String) (l : List FileEntry)
    (p : List String) (hfind : find_marker root l = some p) (acc : DirInfo) :
    collect_dir_go root acc l = .error p := by
  induction l generalizing acc with
  | nil => cases hfind
  | cons fi rest ih =>
    by_cases hname : fi.name = DVCIGNORE_FILE
    · rw [find_marker, if_pos hname] at hfind
      cases hfind
      simp only [collect_dir_go]
      rw [if_pos hname]
    · rw [find_marker, if_neg hname] at hfind
      simp only [collect_dir_go]
      rw [if_neg hname]
      exact ih hfind _

/-- The error found by `find_marker` is the parent directory of some
marker-named member of the enumeration. -/
theorem find_marker_spec (root : List String) (l : List FileEntry)
    (p : List String) (hfind : find_marker root l = some p) :
    ∃ fi ∈ l, fi.name = DVCIGNORE_FILE ∧ p = fi.parent root := by
  induction l with
  | nil => cases hfind
  | cons fi rest ih =>
    by_cases hname : fi.name = DVCIGNORE_FILE
    · rw [find_marker, if_pos hname] at hfind
      cases hfind
      exact ⟨fi, List.mem_cons_self _ _, hname, rfl⟩
    · rw [find_marker, if_neg hname] at hfind
      obtain ⟨fj, hmem, hn, hp⟩ := ih hfind
      exact ⟨fj, List.mem_cons_of_mem _ hmem, hn, hp⟩

/-- An enumeration containing a marker-named member makes `find_marker`
find one. -/
theorem find_marker_isSome (root : List String) (l : List FileEntry)
    (hmem : ∃ fi ∈ l, fi.name = DVCIGNORE_FILE) :
    ∃ p, find_marker root l = some p := by
  induction l with
  | nil => obtain ⟨fi, hfi, -⟩ := hmem; cases hfi
  | cons fi rest ih =>
    by_cases hname : fi.name = DVCIGNORE_FILE
    · exact ⟨fi.parent root, by rw [find_marker, if_pos hname]⟩
    · obtain ⟨fj, hfj, hn⟩ := hmem
      rcases List.mem_cons.mp hfj with h | h
      · exact absurd (h ▸ hn) hname
      · obtain ⟨p, hp⟩ := ih ⟨fj, h, hn⟩
        exact ⟨p, by rw [find_marker, if_neg hname]; exact hp⟩

/-- C4: a member whose relative path is exactly the ignore-marker filename
makes `_collect_dir` and `get_dir_hash` fail with a structural-violation
error naming a marker-named member's parent directory, and no manifest is
produced; conversely, with no marker-named member the collection
succeeds with a manifest. -/
theorem get_dir_hash_rejects_marker (H : DirInfo → String) (alg : String)
    (root : List String) (l : List FileEntry) :
    ((∃ fi ∈ l, fi.parts = [DVCIGNORE_FILE]) →
      ∃ p, collect_dir root l = .error p
        ∧ get_dir_hash H alg root l = .error p
        ∧ ∃ fi ∈ l, fi.name = DVCIGNORE_FILE ∧ p = fi.parent root)
    ∧ ((∀ fi ∈ l, fi.name ≠ DVCIGNORE_FILE) →
      ∃ d, collect_dir root l = .ok d) := by
  constructor
  · intro hmem
    obtain ⟨fi, hfi, hparts⟩ := hmem
    have hname : fi.name = DVCIGNORE_FILE := by
      rw [FileEntry.name, hparts]; rfl
    obtain ⟨p, hp⟩ := find_marker_isSome root l ⟨fi, hfi, hname⟩
    refine ⟨p, collect_dir_go_marker root l p hp ∅, ?_, find_marker_spec root l p hp⟩
    unfold get_dir_hash collect_dir
    rw [collect_dir_go_marker root l p hp ∅]
    rfl
  · intro hnomark
    exact ⟨_, collect_dir_go_ok root l hnomark ∅⟩

/-- Witness for C4 at a concrete input: a directory holding `.dvcignore`
fails naming the directory itself; the same directory without the marker
succeeds. -/
theorem get_dir_hash_rejects_marker_witness :
    (∃ p, collect_dir ["root"]
          [⟨["a.txt"], ⟨"md5", "aa", some 1⟩⟩, ⟨[".dvcignore"], ⟨"md5", "ii", some 9⟩⟩] =
        .error p
      ∧ get_dir_hash (fun _ => "h") "md5" ["root"]
          [⟨["a.txt"], ⟨"md5", "aa", some 1⟩⟩, ⟨[".dvcignore"], ⟨"md5", "ii", some 9⟩⟩] =
        .error p
      ∧ ∃ fi ∈ [(⟨["a.txt"], ⟨"md5", "aa", some 1⟩⟩ : FileEntry),
            ⟨[".dvcignore"], ⟨"md5", "ii", some 9⟩⟩],
          fi.name = DVCIGNORE_FILE ∧ p = fi.parent ["root"]) :=
  (get_dir_hash_rejects_marker (fun _ => "h") "md5" ["root"]
      [⟨["a.txt"], ⟨"md5", "aa", some 1⟩⟩, ⟨[".dvcignore"], ⟨"md5", "ii", some 9⟩⟩]).1
    (by decide)

/-- C7 counterexample: the claim's exception clause, taken as stated, is
false on the code: with source scheme `gs`, backend and destination scheme
`s3`, `download` raises the cross-scheme error instead of delegating to
the native copy. -/
theorem download_claim_literal_false : ¬ download_claim_literal := by
  intro h
  have h2 := (h ⟨true, "s3", "gs", "s3", false⟩ rfl).1 ⟨rfl, by decide⟩
  rw [show download ⟨true, "s3", "gs", "s3", false⟩ = .crossScheme from by decide] at h2
  cases h2

/-- C7 (amended): given the single-object download primitive, a source
scheme differing from the backend's always fails with a cross-scheme
error before any transfer; when source and destination both carry the
backend's scheme and it is not the local scheme, `download` delegates to
the native copy primitive and reports zero bytes. -/
theorem download_scheme_rules (a : DownloadArgs) (hdl : a.has_download = true) :
    (a.from_scheme ≠ a.self_scheme → download a = .crossScheme)
    ∧ (a.from_scheme = a.self_scheme → a.to_scheme = a.self_scheme →
        a.self_scheme ≠ "local" → download a = .copied 0) := by
  unfold download
  rw [if_neg (not_not_intro hdl)]
  constructor
  · intro hfrom
    rw [if_pos hfrom]
  · intro h1 h2 h3
    rw [if_neg (not_not_intro h1), if_pos ⟨h2, h3⟩]

/-- Witness for the amended C7 at concrete inputs: a `gs → s3` request on
an `s3` backend is a cross-scheme error; an `s3 → s3` request on it is
served by the native copy with zero bytes. -/
theorem download_scheme_rules_witness :
    download ⟨true, "s3", "gs", "s3", false⟩ = .crossScheme
    ∧ download ⟨true, "s3", "s3", "s3", false⟩ = .copied 0 :=
  ⟨(download_scheme_rules ⟨true, "s3", "gs", "s3", false⟩ rfl).1 (by decide),
   (download_scheme_rules ⟨true, "s3", "s3", "s3", false⟩ rfl).2 rfl rfl (by decide)⟩

/-- The reference loop keeps exactly the references with a retained
baseline and counts exactly the others. -/
theorem gc_refs_spec (keep : List String) (tgt : String → String)
    (eb ea ec : Option String) (refs : List RefInfo) :
    (gc_refs keep tgt eb ea ec refs).kept =
        refs.filter (fun r => decide (r.baseline_sha ∈ keep))
    ∧ (gc_refs keep tgt eb ea ec refs).removed =
        (refs.filter (fun r => decide (r.baseline_sha ∉ keep))).length := by
  induction refs with
  | nil => exact ⟨rfl, rfl⟩
  | cons ri rest ih =>
    by_cases hk : ri.baseline_sha ∈ keep
    · simp [gc_refs, if_pos hk, List.filter_cons, hk, ih.1, ih.2]
    · simp [gc_refs, if_neg hk, List.filter_cons, hk, ih.1, ih.2]

/-- C8 counterexample: by default (no explicit request), `gc` also removes
queued entries whose baseline is retained, contradicting the claim's
reading that only non-retained queued entries are removed by default. -/
theorem gc_claim_queued_literal_false : ¬ gc_claim_queued_literal := fun h =>
  absurd (h gc_c8_env false (by decide)) (by decide)

/-- C8 (amended): with a non-empty retained set, `gc` keeps exactly the
references with a retained baseline; it removes every queued entry by
default and, when queued preservation is requested, only the queued
entries whose baseline is not retained; and it returns the total count of
removed references and queued entries. -/
theorem gc_characterization (env : GcEnv) (workspace queued : Bool)
    (hne : keep_revs env workspace ≠ []) :
    (gc env workspace queued).remaining_refs =
        env.refs.filter (fun r => decide (r.baseline_sha ∈ keep_revs env workspace))
    ∧ (gc env workspace queued).remaining_stash =
        env.stash.filter
          (fun e => queued && decide (e.baseline_rev ∈ keep_revs env workspace))
    ∧ (gc env workspace queued).removed =
        (env.refs.filter
            (fun r => decide (r.baseline_sha ∉ keep_revs env workspace))).length
          + (env.stash.filter
              (fun e =>
                !queued || decide (e.baseline_rev ∉ keep_revs env workspace))).length := by
  have hif : (keep_revs env workspace).isEmpty ≠ true := fun hcontra =>
    hne (List.isEmpty_iff.mp hcontra)
  have hgc : gc env workspace queued = gc_run env (keep_revs env workspace) queued := by
    unfold gc
    rw [if_neg hif]
  have hspec := gc_refs_spec (keep_revs env workspace) env.ref_target
    env.exec_branch env.exec_apply env.exec_checkpoint env.refs
  have hcond : ∀ e : StashEntry,
      (!(stash_delete_cond (keep_revs env workspace) queued e)) =
        (queued && decide (e.baseline_rev ∈ keep_revs env workspace)) := by
    intro e
    simp [stash_delete_cond, decide_not]
  refine ⟨?_, ?_, ?_⟩
  · rw [hgc]
    exact hspec.1
  · rw [hgc]
    show env.stash.filter _ = _
    exact List.filter_congr fun e _ => hcond e
  · rw [hgc]
    show (gc_refs _ _ _ _ _ _).removed + _ = _
    rw [hspec.2]
    rfl

/-- Witness for the amended C8 at the spec's concrete scenario: retained
set `rev1`, references `R1` (baseline `rev1`) and `R2` (baseline `rev2`),
one queued entry on `rev2`; a queued-preserving `gc` removes `R2` and the
queued entry and returns 2. -/
theorem gc_characterization_witness :
    (gc ⟨["rev1"], "rev1", [⟨"refs/exps/aa/r1", "rev1"⟩, ⟨"refs/exps/bb/r2", "rev2"⟩],
        fun _ => "sha0", none, none, none, [⟨0, "rev2"⟩]⟩ false true).removed =
      ([(⟨"refs/exps/bb/r2", "rev2"⟩ : RefInfo)]).length
        + ([(⟨0, "rev2"⟩ : StashEntry)]).length := by
  have h := (gc_characterization ⟨["rev1"], "rev1",
    [⟨"refs/exps/aa/r1", "rev1"⟩, ⟨"refs/exps/bb/r2", "rev2"⟩],
    fun _ => "sha0", none, none, none, [⟨0, "rev2"⟩]⟩ false true (by decide)).2.2
  rw [h]
  decide

/-- C9: the code clears the `EXEC_BRANCH` pointer as soon as any reference
is removed, even though the pointer designates a reference that is kept:
on `gc_c9_env` the pointer named the retained `R1`, which survives, yet
the pointer is cleared. -/
theorem gc_exec_branch_cleared_spuriously :
    (gc gc_c9_env false false).exec_branch = none
    ∧ gc_c9_env.exec_branch = some "refs/exps/aa/r1"
    ∧ (⟨"refs/exps/aa/r1", "rev1"⟩ : RefInfo) ∈ (gc gc_c9_env false false).remaining_refs := by
  refine ⟨by decide, rfl, by decide⟩

/-- C10: when the computed keep-revision set is empty, `gc` returns 0 and
changes nothing: references, queued entries and all three execution
pointers are untouched. -/
theorem gc_empty_keep_noop (env : GcEnv) (workspace queued : Bool)
    (h : keep_revs env workspace = []) :
    gc env workspace queued =
      ⟨0, env.refs, env.exec_branch, env.exec_apply, env.exec_checkpoint, env.stash⟩ := by
  unfold gc
  rw [h]
  rfl

/-- Witness for C10 at a concrete input: with no retained revisions the
call returns 0 and leaves every component in place. -/
theorem gc_empty_keep_noop_witness :
    gc ⟨[], "rev1", [⟨"refs/exps/aa/r1", "rev1"⟩], fun _ => "sha1",
        some "refs/exps/aa/r1", some "sha1", none, [⟨0, "rev1"⟩]⟩ false false =
      ⟨0, [⟨"refs/exps/aa/r1", "rev1"⟩], some "refs/exps/aa/r1", some "sha1", none,
        [⟨0, "rev1"⟩]⟩ :=
  gc_empty_keep_noop ⟨[], "rev1", [⟨"refs/exps/aa/r1", "rev1"⟩], fun _ => "sha1",
    some "refs/exps/aa/r1", some "sha1", none, [⟨0, "rev1"⟩]⟩ false false rfl

end Dvc
